import Mathlib

/-!
Shallow embedding of the Omni federated chat server core (the `create`
closure of `src/index.js`): entity records, the presence set, the live
peer-connection set, pairing bookkeeping, and the local operations with
their remote-mirror twins.

Conventions used throughout:
* `uuidv4()` results and `Date.now()` readings enter operations as
  explicit arguments (`fresh_id`, `now`);
* a JavaScript `TypeError` raised by dereferencing a missing record is
  modelled by `Except.error`, carrying the state at the moment of the
  throw;
* frames pushed over peer sockets are collected as `(peer id, frame)`
  pairs in send order, and emitted events are collected in emission
  order, in the `sent` and `events` fields of `OpResult`;
* JavaScript objects used as keyed maps (`online_users`,
  `peer_connections`, `pending_pair_requests.incoming`) are modelled as
  lists in insertion order, with insert-if-absent and remove-all-keys
  operations.
-/

namespace Omni

/-- A `user` record: `{id, attributes: {username, admin}, relationships.peer}`. -/
structure User where
  id : String
  username : String
  admin : Bool
  peer_id : String
deriving DecidableEq, Repr

/-- A `channel` record:
`{id, attributes: {name, admin_only, is_private, timestamp}, relationships.peer}`. -/
structure Channel where
  id : String
  name : String
  admin_only : Bool
  is_private : Bool
  timestamp : Int
  peer_id : String
deriving DecidableEq, Repr

/-- A `message` record:
`{id, attributes: {content, timestamp}, relationships.user, relationships.channel}`. -/
structure Message where
  id : String
  content : String
  timestamp : Int
  user_id : String
  channel_id : String
deriving DecidableEq, Repr

/-- A `peer` record: `{id, attributes: {name, address, port}}`. -/
structure Peer where
  id : String
  name : String
  address : String
  port : Nat
deriving DecidableEq, Repr

/-- The payload stored in `pending_pair_requests.incoming[id]`:
`{name, address, port}`. -/
structure PairInfo where
  name : String
  address : String
  port : Nat
deriving DecidableEq, Repr

/-- A wire-protocol frame, discriminated in the source by its `type`
string; constructor names equal the `type` values the source writes. -/
inductive Frame where
  | login (id : String)
  | logout (id : String)
  | create_user (id username : String)
  | delete_user (id : String)
  | channel_create (id name : String) (timestamp : Int)
  | channel_delete (id : String)
  | send_message (user_id channel_id content : String) (timestamp : Int)
  | message_delete (id : String)
deriving DecidableEq, Repr

/-- An event pushed on the local `event_bus`. -/
inductive Event where
  | create_user (u : User)
  | delete_user (id : String)
  | user_online (u : User)
  | user_offline (u : User)
  | channel_create (c : Channel)
  | channel_delete (id : String)
  | message (m : Message) (recipients : List User)
  | message_delete (m : Message) (recipients : List User)
deriving DecidableEq, Repr

/-- The mutable state captured by the `create` closure: the Orbit
in-memory record store split by record type, plus the presence set, the
live peer connections, the incoming pending pair requests, and this
server's own id. -/
structure ServerState where
  users : List User
  channels : List Channel
  messages : List Message
  peers : List Peer
  online_users : List String
  peer_connections : List String
  pending_incoming : List (String × PairInfo)
  this_server_id : String
deriving DecidableEq, Repr

/-- The observable outcome of one operation: its return value, the
post-state, the frames pushed to peers, and the events emitted. -/
structure OpResult (α : Type) where
  ret : α
  state : ServerState
  sent : List (String × Frame)
  events : List Event
deriving DecidableEq, Repr

/-- `get_user`: `findRecord {type: "user", id}`, null becoming `none`. -/
def get_user (s : ServerState) (id : String) : Option User :=
  s.users.find? (fun u => u.id == id)

/-- `find_user_by_username`: first user whose `username` attribute matches. -/
def find_user_by_username (s : ServerState) (username : String) : Option User :=
  s.users.find? (fun u => u.username == username)

/-- `get_channel`: `findRecord {type: "channel", id}`, null becoming `none`. -/
def get_channel (s : ServerState) (id : String) : Option Channel :=
  s.channels.find? (fun c => c.id == id)

/-- `find_channel_by_name`: first channel whose `name` attribute matches. -/
def find_channel_by_name (s : ServerState) (name : String) : Option Channel :=
  s.channels.find? (fun c => c.name == name)

/-- `get_message`: `findRecord {type: "message", id}`, null becoming `none`. -/
def get_message (s : ServerState) (id : String) : Option Message :=
  s.messages.find? (fun m => m.id == id)

/-- `online_users[id] = true`: key insertion into a JS object, a no-op
when the key is already present. -/
def online_mark (l : List String) (id : String) : List String :=
  if id ∈ l then l else l ++ [id]

/-- `create_user_internal(id, username, admin, peer_id)`: no-op returning
null when a record with `id` already exists, otherwise stores the user
and emits `create_user`. -/
def create_user_internal (s : ServerState) (id username : String) (admin : Bool)
    (peer_id : String) : OpResult (Option String) :=
  match get_user s id with
  | some _ => ⟨none, s, [], []⟩
  | none =>
      let user : User := ⟨id, username, admin, peer_id⟩
      ⟨some id, { s with users := s.users ++ [user] }, [], [Event.create_user user]⟩

/-- `create_user(username, admin)`: rejects a taken username with null,
otherwise creates a locally-owned user (id from `uuidv4()`, passed here
as `fresh_id`) and pushes a `create_user` frame to every connected peer. -/
def create_user (s : ServerState) (fresh_id username : String)
    (admin : Bool := false) : OpResult (Option String) :=
  if (find_user_by_username s username).isSome then ⟨none, s, [], []⟩
  else
    let r := create_user_internal s fresh_id username admin s.this_server_id
    match r.ret with
    | some id =>
        ⟨some id, r.state,
          r.state.peer_connections.map (fun p => (p, Frame.create_user id username)),
          r.events⟩
    | none => ⟨none, r.state, [], r.events⟩

/-- `delete_user_internal(id, peer_id)`: removes the user only when it
exists and its owning peer matches; the presence set is left untouched
(the source has no `delete online_users[id]` here). -/
def delete_user_internal (s : ServerState) (id peer_id : String) : OpResult Bool :=
  match get_user s id with
  | none => ⟨false, s, [], []⟩
  | some user =>
      if user.peer_id = peer_id then
        ⟨true, { s with users := s.users.filter (fun u => !(u.id == id)) }, [],
          [Event.delete_user id]⟩
      else ⟨false, s, [], []⟩

/-- `delete_user(id)`: the local deletion, pushing a `delete_user` frame
to every connected peer on success. -/
def delete_user (s : ServerState) (id : String) : OpResult Bool :=
  let r := delete_user_internal s id s.this_server_id
  if r.ret then
    ⟨true, r.state,
      r.state.peer_connections.map (fun p => (p, Frame.delete_user id)), r.events⟩
  else r

/-- `login_user(id)`: fails on an unknown user; marks presence, emits
`user_online`, and pushes a `login` frame to peers when the user is
locally owned. -/
def login_user (s : ServerState) (id : String) : OpResult Bool :=
  match get_user s id with
  | none => ⟨false, s, [], []⟩
  | some user =>
      let sent :=
        if user.peer_id = s.this_server_id then
          s.peer_connections.map (fun p => (p, Frame.login id))
        else []
      ⟨true, { s with online_users := online_mark s.online_users id }, sent,
        [Event.user_online user]⟩

/-- `logout_user(id)`: fails on an unknown or offline user; clears
presence and emits `user_offline`. The frame pushed to peers for a
locally-owned user carries the type string `login` — that is what line
364 of the source sends inside `logout_user`. -/
def logout_user (s : ServerState) (id : String) : OpResult Bool :=
  match get_user s id with
  | none => ⟨false, s, [], []⟩
  | some user =>
      if id ∈ s.online_users then
        let sent :=
          if user.peer_id = s.this_server_id then
            s.peer_connections.map (fun p => (p, Frame.login id))
          else []
        ⟨true, { s with online_users := s.online_users.filter (fun x => !(x == id)) },
          sent, [Event.user_offline user]⟩
      else ⟨false, s, [], []⟩

/-- `create_channel_internal(id, name, admin_only, is_private, timestamp,
peer_id)`: no-op returning null when a record with `id` already exists,
otherwise stores the channel and emits `channel_create`. -/
def create_channel_internal (s : ServerState) (id name : String)
    (admin_only is_private : Bool) (timestamp : Int) (peer_id : String) :
    OpResult (Option String) :=
  match get_channel s id with
  | some _ => ⟨none, s, [], []⟩
  | none =>
      let c : Channel := ⟨id, name, admin_only, is_private, timestamp, peer_id⟩
      ⟨some id, { s with channels := s.channels ++ [c] }, [],
        [Event.channel_create c]⟩

/-- `create_channel(name, admin_only, is_private)`: rejects a taken name
with null, otherwise creates a locally-owned channel (id from `uuidv4()`,
creation time from `Date.now()`), pushing a `channel_create` frame to
every connected peer only when the channel is neither private nor
admin-only. -/
def create_channel (s : ServerState) (fresh_id name : String)
    (admin_only is_private : Bool) (now : Int) : OpResult (Option String) :=
  if (find_channel_by_name s name).isSome then ⟨none, s, [], []⟩
  else
    let r := create_channel_internal s fresh_id name admin_only is_private now
      s.this_server_id
    match r.ret with
    | some id =>
        if !is_private && !admin_only then
          ⟨some id, r.state,
            r.state.peer_connections.map
              (fun p => (p, Frame.channel_create id name now)),
            r.events⟩
        else ⟨some id, r.state, [], r.events⟩
    | none => ⟨none, r.state, [], r.events⟩

/-- `delete_channel_internal(id, peer_id)`: removes the channel only when
it exists and its owning peer matches. -/
def delete_channel_internal (s : ServerState) (id peer_id : String) : OpResult Bool :=
  match get_channel s id with
  | none => ⟨false, s, [], []⟩
  | some c =>
      if c.peer_id = peer_id then
        ⟨true, { s with channels := s.channels.filter (fun x => !(x.id == id)) }, [],
          [Event.channel_delete id]⟩
      else ⟨false, s, [], []⟩

/-- `delete_channel(id)`: fetches the channel first (returning false when
absent), delegates to `delete_channel_internal` with this server's id,
and on success pushes a `channel_delete` frame to every connected peer
when the deleted channel was neither private nor admin-only. -/
def delete_channel (s : ServerState) (id : String) : OpResult Bool :=
  match get_channel s id with
  | none => ⟨false, s, [], []⟩
  | some channel =>
      let r := delete_channel_internal s id s.this_server_id
      if r.ret then
        if !channel.is_private && !channel.admin_only then
          ⟨true, r.state,
            r.state.peer_connections.map (fun p => (p, Frame.channel_delete channel.id)),
            r.events⟩
        else ⟨true, r.state, [], r.events⟩
      else r

/-- The shared shape of the three per-channel presence queries: walk the
presence keys in insertion order, look each user up, and keep those the
query's filter admits. A missing user record makes the source dereference
`null` (`user.relationships` / `user.attributes`), modelled as `none`. -/
def collect_online (s : ServerState) (p : User → Bool) : List String → Option (List User)
  | [] => some []
  | uid :: rest =>
      match get_user s uid with
      | none => none
      | some user =>
          match collect_online s p rest with
          | none => none
          | some us => some (if p user then user :: us else us)

/-- `get_online_users(channel_id)`: empty for an unknown channel; skips a
remote user when the channel is private (`continue`), then admits a user
exactly when the user is an admin or the channel is not admin-only. -/
def get_online_users (s : ServerState) (channel_id : String) : Option (List User) :=
  match get_channel s channel_id with
  | none => some []
  | some c =>
      collect_online s
        (fun u =>
          if !(u.peer_id == s.this_server_id) && c.is_private then false
          else u.admin || !c.admin_only)
        s.online_users

/-- `get_online_local_users(channel_id)`: empty for an unknown channel;
admits a locally-owned online user when the user is an admin or the
channel is not admin-only. -/
def get_online_local_users (s : ServerState) (channel_id : String) :
    Option (List User) :=
  match get_channel s channel_id with
  | none => some []
  | some c =>
      collect_online s
        (fun u => u.peer_id == s.this_server_id && (u.admin || !c.admin_only))
        s.online_users

/-- `get_online_remote_users(channel_id)`: empty for an unknown or
private channel; admits a remotely-owned online user when the user is an
admin or the channel is not admin-only. -/
def get_online_remote_users (s : ServerState) (channel_id : String) :
    Option (List User) :=
  match get_channel s channel_id with
  | none => some []
  | some c =>
      if c.is_private then some []
      else
        collect_online s
          (fun u => !(u.peer_id == s.this_server_id) && (u.admin || !c.admin_only))
          s.online_users

/-- Insert one element into a list already nondecreasing on `key`. -/
def insert_by_ts {α : Type} (key : α → Int) (x : α) : List α → List α
  | [] => [x]
  | y :: ys => if key x ≤ key y then x :: y :: ys else y :: insert_by_ts key x ys

/-- The `.sort((a, b) => a.attributes.timestamp - b.attributes.timestamp)`
calls of the source: produce a permutation nondecreasing on `key`. -/
def sort_by_ts {α : Type} (key : α → Int) : List α → List α
  | [] => []
  | x :: xs => insert_by_ts key x (sort_by_ts key xs)

/-- `get_messages(channel_id, timestamp, limit)`: null for an unknown
channel; otherwise the channel's messages strictly before the cutoff,
sorted ascending by timestamp and cut off at `limit` (default 50). -/
def get_messages (s : ServerState) (channel_id : String) (timestamp : Int)
    (limit : Nat := 50) : Option (List Message) :=
  match get_channel s channel_id with
  | none => none
  | some _ =>
      some ((sort_by_ts (fun m => m.timestamp)
        ((s.messages.filter (fun m => m.channel_id == channel_id)).filter
          (fun m => decide (m.timestamp < timestamp)))).take limit)

/-- `send_message(user_id, channel_id, content)`: null when the channel
is unknown or the user offline; null when the channel is admin-only and
the user is not an admin; otherwise stores the message (id from
`uuidv4()`, time from `Date.now()`) and, when the author is locally owned
and the channel is not private, pushes a `send_message` frame to every
connected peer that can see the channel. A missing user record makes the
source dereference `null`, modelled as `Except.error`. -/
def send_message (s : ServerState) (fresh_id user_id channel_id content : String)
    (now : Int) : Except ServerState (OpResult (Option String)) :=
  match get_channel s channel_id with
  | none => .ok ⟨none, s, [], []⟩
  | some channel =>
      if user_id ∈ s.online_users then
        match get_user s user_id with
        | none => .error s
        | some user =>
            if channel.admin_only && !user.admin then .ok ⟨none, s, [], []⟩
            else
              let message : Message := ⟨fresh_id, content, now, user_id, channel_id⟩
              let sent :=
                if user.peer_id == s.this_server_id && !channel.is_private then
                  (s.peer_connections.filter (fun p =>
                      channel.peer_id == s.this_server_id || channel.peer_id == p)).map
                    (fun p => (p, Frame.send_message user_id channel_id content now))
                else []
              let s' := { s with messages := s.messages ++ [message] }
              match get_online_local_users s' channel_id with
              | none => .error s'
              | some recipients =>
                  .ok ⟨some fresh_id, s', sent, [Event.message message recipients]⟩
      else .ok ⟨none, s, [], []⟩

/-- `send_remote_message(user_id, channel_id, content, message_id,
timestamp)`: the inbound mirror of `send_message`; null when the channel
is unknown or the user offline, and rejected outright when the channel is
admin-only or private; never pushes frames. -/
def send_remote_message (s : ServerState) (user_id channel_id content message_id : String)
    (timestamp : Int) : Except ServerState (OpResult (Option String)) :=
  match get_channel s channel_id with
  | none => .ok ⟨none, s, [], []⟩
  | some channel =>
      if user_id ∈ s.online_users then
        if channel.admin_only || channel.is_private then .ok ⟨none, s, [], []⟩
        else
          let message : Message := ⟨message_id, content, timestamp, user_id, channel_id⟩
          let s' := { s with messages := s.messages ++ [message] }
          match get_online_local_users s' channel_id with
          | none => .error s'
          | some recipients =>
              .ok ⟨some message_id, s', [], [Event.message message recipients]⟩
      else .ok ⟨none, s, [], []⟩

/-- `delete_message(id)`: the source immediately dereferences
`message.relationships` and later `channel.relationships`, so an unknown
message id (or a message whose channel is gone) throws instead of
returning a sentinel; on the normal path it removes the record, pushes a
`message_delete` frame to peers when the channel is locally owned and
public, and emits `message_delete`. -/
def delete_message (s : ServerState) (id : String) :
    Except ServerState (OpResult Unit) :=
  match get_message s id with
  | none => .error s
  | some message =>
      let channelq := get_channel s message.channel_id
      let s' := { s with messages := s.messages.filter (fun m => !(m.id == id)) }
      match channelq with
      | none => .error s'
      | some channel =>
          let sent :=
            if channel.peer_id == s.this_server_id && !channel.is_private
                && !channel.admin_only then
              s'.peer_connections.map (fun p => (p, Frame.message_delete id))
            else []
          match get_online_local_users s' channel.id with
          | none => .error s'
          | some recipients =>
              .ok ⟨(), s', sent, [Event.message_delete message recipients]⟩

/-- `get_all_local_channels()`: the locally-owned channels sorted by
creation time. -/
def get_all_local_channels (s : ServerState) : List Channel :=
  sort_by_ts (fun c => c.timestamp)
    (s.channels.filter (fun c => c.peer_id == s.this_server_id))

/-- `get_all_local_users()`: the locally-owned user records. -/
def get_all_local_users (s : ServerState) : List User :=
  s.users.filter (fun u => u.peer_id == s.this_server_id)

/-- `inform_peer(id)`: the catch-up pass pushed once per new connection —
a `channel_create` for every locally-owned channel that is neither
admin-only nor private, a `create_user` for every locally-owned user, and
a `login` for every presence key; false when the peer is not connected. -/
def inform_peer (s : ServerState) (id : String) : Bool × List (String × Frame) :=
  if id ∈ s.peer_connections then
    let cframes := ((get_all_local_channels s).filter
        (fun c => !c.admin_only && !c.is_private)).map
      (fun c => (id, Frame.channel_create c.id c.name c.timestamp))
    let uframes := (get_all_local_users s).map
      (fun u => (id, Frame.create_user u.id u.username))
    let lframes := s.online_users.map (fun uid => (id, Frame.login uid))
    (true, cframes ++ uframes ++ lframes)
  else (false, [])

/-- `add_peer(id, name, address, port)`: stores a peer record. -/
def add_peer (s : ServerState) (id name address : String) (port : Nat) : ServerState :=
  { s with peers := s.peers ++ [⟨id, name, address, port⟩] }

/-- `pending_pair_requests.incoming[id]` lookup. -/
def lookup_incoming (s : ServerState) (id : String) : Option PairInfo :=
  (s.pending_incoming.find? (fun e => e.1 == id)).map (fun e => e.2)

/-- `respond_to_pair_request(id, accepted)`: false when no incoming
pending request for `id` exists; otherwise adds the peer record when
accepting and returns true. The source never deletes
`pending_pair_requests.incoming[id]`, so the entry survives the call; the
socket callbacks it also schedules (handshake, `inform_peer`) run
asynchronously and are outside this synchronous model. -/
def respond_to_pair_request (s : ServerState) (id : String) (accepted : Bool) :
    Bool × ServerState :=
  match lookup_incoming s id with
  | none => (false, s)
  | some info =>
      let s' := if accepted then add_peer s id info.name info.address info.port else s
      (true, s')

/-- The `create_user` case of the `set_up_handlers` dispatch: applies a
peer's `create_user {id, username}` frame through `create_user_internal`
with the `admin` argument hard-coded to `false`. -/
def handle_create_user_frame (s : ServerState) (peer_id id username : String) :
    OpResult (Option String) :=
  create_user_internal s id username false peer_id

/-- The `delete_user` case of the `set_up_handlers` dispatch: applies a
peer's `delete_user {id}` frame through `delete_user_internal`. -/
def handle_delete_user_frame (s : ServerState) (peer_id id : String) : OpResult Bool :=
  delete_user_internal s id peer_id

/-! ## Helper lemmas -/

/-- After filtering away every element whose key equals `id`, a key
search for `id` finds nothing. -/
theorem find?_filter_out {α : Type} (l : List α) (f : α → String) (id : String) :
    (l.filter (fun x => !(f x == id))).find? (fun x => f x == id) = none := by
  rw [List.find?_eq_none]
  intro x hx
  have hkeep := (List.mem_filter.mp hx).2
  simp only [Bool.not_eq_true', beq_eq_false_iff_ne, ne_eq] at hkeep
  simp only [beq_iff_eq]
  exact hkeep

/-- Every user a successful `collect_online` run returns passes the
query's filter. -/
theorem collect_online_mem (s : ServerState) (p : User → Bool) :
    ∀ (l : List String) (us : List User), collect_online s p l = some us →
      ∀ u ∈ us, p u = true := by
  intro l
  induction l with
  | nil =>
      intro us h u hu
      simp only [collect_online, Option.some.injEq] at h
      subst h
      simp at hu
  | cons uid rest ih =>
      intro us h u hu
      simp only [collect_online] at h
      cases hg : get_user s uid with
      | none => rw [hg] at h; exact absurd h (by simp)
      | some user =>
          rw [hg] at h
          cases hc : collect_online s p rest with
          | none => rw [hc] at h; exact absurd h (by simp)
          | some us' =>
              rw [hc] at h
              simp only [Option.some.injEq] at h
              subst h
              by_cases hp : p user = true
              · rw [if_pos hp] at hu
                rcases List.mem_cons.mp hu with rfl | hu'
                · exact hp
                · exact ih us' hc u hu'
              · rw [if_neg hp] at hu
                exact ih us' hc u hu

/-- Membership is invariant under `insert_by_ts`. -/
theorem mem_insert_by_ts {α : Type} (key : α → Int) (x : α) (l : List α) (a : α) :
    a ∈ insert_by_ts key x l ↔ a = x ∨ a ∈ l := by
  induction l with
  | nil => simp [insert_by_ts]
  | cons y ys ih =>
      by_cases h : key x ≤ key y
      · simp [insert_by_ts, h]
      · simp [insert_by_ts, h, ih, or_left_comm]

/-- Membership is invariant under `sort_by_ts`. -/
theorem mem_sort_by_ts {α : Type} (key : α → Int) (l : List α) (a : α) :
    a ∈ sort_by_ts key l ↔ a ∈ l := by
  induction l with
  | nil => simp [sort_by_ts]
  | cons x xs ih => simp [sort_by_ts, mem_insert_by_ts, ih]

/-- `insert_by_ts` keeps a list nondecreasing on `key`. -/
theorem pairwise_insert_by_ts {α : Type} (key : α → Int) (x : α) (l : List α)
    (h : l.Pairwise (fun a b => key a ≤ key b)) :
    (insert_by_ts key x l).Pairwise (fun a b => key a ≤ key b) := by
  induction l with
  | nil => simp [insert_by_ts]
  | cons y ys ih =>
      rcases List.pairwise_cons.mp h with ⟨hy, hys⟩
      by_cases hle : key x ≤ key y
      · rw [insert_by_ts, if_pos hle]
        refine List.pairwise_cons.mpr ⟨?_, h⟩
        intro b hb
        rcases List.mem_cons.mp hb with rfl | hb'
        · exact hle
        · exact le_trans hle (hy b hb')
      · rw [insert_by_ts, if_neg hle]
        refine List.pairwise_cons.mpr ⟨?_, ih hys⟩
        intro b hb
        rcases (mem_insert_by_ts key x ys b).mp hb with rfl | hb'
        · exact le_of_not_le hle
        · exact hy b hb'

/-- `sort_by_ts` output is nondecreasing on `key`. -/
theorem pairwise_sort_by_ts {α : Type} (key : α → Int) (l : List α) :
    (sort_by_ts key l).Pairwise (fun a b => key a ≤ key b) := by
  induction l with
  | nil => simp [sort_by_ts]
  | cons x xs ih => exact pairwise_insert_by_ts key x _ ih

/-! ## Claim theorems -/

/-- C2: starting from a state where `username` names no user and `cname`
names no channel (and the generated ids are fresh, as `uuidv4()`
guarantees), the first `create_user` returns its string id and an
immediately repeated call with the same username returns null; likewise
for `create_channel` on a repeated channel name. -/
theorem create_twice_second_rejected (s : ServerState)
    (id1 id2 cid1 cid2 username cname : String) (a1 a2 ao ip : Bool) (ts1 ts2 : Int)
    (hu : find_user_by_username s username = none)
    (hi : get_user s id1 = none)
    (hc : find_channel_by_name s cname = none)
    (hci : get_channel s cid1 = none) :
    ((create_user s id1 username a1).ret = some id1
      ∧ (create_user (create_user s id1 username a1).state id2 username a2).ret = none)
    ∧ ((create_channel s cid1 cname ao ip ts1).ret = some cid1
      ∧ (create_channel (create_channel s cid1 cname ao ip ts1).state
          cid2 cname ao ip ts2).ret = none) := by
  simp only [find_user_by_username] at hu
  simp only [find_channel_by_name] at hc
  constructor
  · constructor
    · simp [create_user, create_user_internal, find_user_by_username, hu, hi]
    · simp [create_user, create_user_internal, find_user_by_username, hu, hi,
        List.find?_append]
  · constructor
    · cases hb : (!ip && !ao) <;>
        simp [create_channel, create_channel_internal, find_channel_by_name, hc, hci, hb]
    · cases hb : (!ip && !ao) <;>
        simp [create_channel, create_channel_internal, find_channel_by_name, hc, hci,
          List.find?_append, hb]

/-- C2 witness: both rejections observed concretely from the empty state. -/
theorem create_twice_second_rejected_witness :
    ((create_user ⟨[], [], [], [], [], [], [], "A"⟩ "u1" "alice" false).ret = some "u1"
      ∧ (create_user (create_user ⟨[], [], [], [], [], [], [], "A"⟩ "u1" "alice" false).state
          "u2" "alice" false).ret = none)
    ∧ ((create_channel ⟨[], [], [], [], [], [], [], "A"⟩ "c1" "general" false false 0).ret
          = some "c1"
      ∧ (create_channel
          (create_channel ⟨[], [], [], [], [], [], [], "A"⟩ "c1" "general" false false 0).state
          "c2" "general" false false 1).ret = none) :=
  create_twice_second_rejected ⟨[], [], [], [], [], [], [], "A"⟩
    "u1" "u2" "c1" "c2" "alice" "general" false false false false 0 1 rfl rfl rfl rfl

/-- C7: `delete_channel` returns true exactly when the channel exists and
is owned by this server; after a success the channel is gone, so an
immediately repeated call returns false, `get_channel` returns null, and
`get_online_users` returns an empty collection rather than an error. -/
theorem delete_channel_once (s : ServerState) (id : String) :
    ((delete_channel s id).ret = true ↔
        ∃ c, get_channel s id = some c ∧ c.peer_id = s.this_server_id)
    ∧ ((delete_channel s id).ret = true →
        (delete_channel (delete_channel s id).state id).ret = false
        ∧ get_channel (delete_channel s id).state id = none
        ∧ get_online_users (delete_channel s id).state id = some []) := by
  by_cases hex : ∃ c, get_channel s id = some c ∧ c.peer_id = s.this_server_id
  · obtain ⟨c, hch, hown⟩ := hex
    have hstate : (delete_channel s id).state
        = { s with channels := s.channels.filter (fun x => !(x.id == id)) } := by
      cases hp : c.is_private <;> cases ha : c.admin_only <;>
        simp [delete_channel, delete_channel_internal, hch, hown, hp, ha]
    have hret : (delete_channel s id).ret = true := by
      cases hp : c.is_private <;> cases ha : c.admin_only <;>
        simp [delete_channel, delete_channel_internal, hch, hown, hp, ha]
    have hgone : get_channel (delete_channel s id).state id = none := by
      rw [hstate]
      exact find?_filter_out s.channels Channel.id id
    have key : ∀ s2 : ServerState, get_channel s2 id = none →
        (delete_channel s2 id).ret = false ∧ get_online_users s2 id = some [] := by
      intro s2 h2
      exact ⟨by simp [delete_channel, h2], by simp [get_online_users, h2]⟩
    exact ⟨⟨fun _ => ⟨c, hch, hown⟩, fun _ => hret⟩,
      fun _ => ⟨(key _ hgone).1, hgone, (key _ hgone).2⟩⟩
  · have hret : (delete_channel s id).ret = false := by
      cases hch : get_channel s id with
      | none => simp [delete_channel, hch]
      | some c =>
          have hown : ¬ c.peer_id = s.this_server_id := fun h => hex ⟨c, hch, h⟩
          simp [delete_channel, delete_channel_internal, hch, hown]
    rw [hret]
    exact ⟨⟨fun h => absurd h (by simp), fun h => absurd h hex⟩,
      fun h => absurd h (by simp)⟩

/-- C7 witness: observed on a one-channel state. -/
theorem delete_channel_once_witness :
    ((delete_channel ⟨[], [⟨"c", "general", false, false, 0, "A"⟩], [], [], [], [], [], "A"⟩
        "c").ret = true ↔
      ∃ ch, get_channel ⟨[], [⟨"c", "general", false, false, 0, "A"⟩], [], [], [], [], [], "A"⟩
          "c" = some ch
        ∧ ch.peer_id
          = (⟨[], [⟨"c", "general", false, false, 0, "A"⟩], [], [], [], [], [], "A"⟩ :
              ServerState).this_server_id)
    ∧ ((delete_channel
          (delete_channel ⟨[], [⟨"c", "general", false, false, 0, "A"⟩], [], [], [], [], [], "A"⟩
            "c").state "c").ret = false
        ∧ get_channel
            (delete_channel ⟨[], [⟨"c", "general", false, false, 0, "A"⟩], [], [], [], [], [], "A"⟩
              "c").state "c" = none
        ∧ get_online_users
            (delete_channel ⟨[], [⟨"c", "general", false, false, 0, "A"⟩], [], [], [], [], [], "A"⟩
              "c").state "c" = some []) :=
  ⟨(delete_channel_once ⟨[], [⟨"c", "general", false, false, 0, "A"⟩], [], [], [], [], [], "A"⟩
      "c").1,
   (delete_channel_once ⟨[], [⟨"c", "general", false, false, 0, "A"⟩], [], [], [], [], [], "A"⟩
      "c").2 rfl⟩

/-- C8: for an existing channel, `get_messages` returns at most `limit`
messages, every returned message is strictly before the cutoff, and the
result is nondecreasing in timestamp. -/
theorem get_messages_bounded_sorted (s : ServerState) (cid : String)
    (cutoff : Int) (limit : Nat) (ms : List Message)
    (h : get_messages s cid cutoff limit = some ms) :
    ms.length ≤ limit ∧ (∀ m ∈ ms, m.timestamp < cutoff)
    ∧ ms.Pairwise (fun a b => a.timestamp ≤ b.timestamp) := by
  rw [get_messages] at h
  cases hch : get_channel s cid with
  | none => rw [hch] at h; exact absurd h (by simp)
  | some c =>
      rw [hch, Option.some.injEq] at h
      subst h
      refine ⟨List.length_take_le _ _, ?_, ?_⟩
      · intro m hm
        have hm' := List.mem_of_mem_take hm
        rw [mem_sort_by_ts] at hm'
        have := (List.mem_filter.mp hm').2
        simpa using this
      · exact (pairwise_sort_by_ts (fun m : Message => m.timestamp) _).sublist
          (List.take_sublist _ _)

/-- C8 witness: a channel with three out-of-order messages, one at the
cutoff, queried with limit 2. -/
theorem get_messages_bounded_sorted_witness :
    ([(⟨"m1", "a", 1, "u", "c"⟩ : Message), ⟨"m2", "b", 2, "u", "c"⟩].length ≤ 2
    ∧ (∀ m : Message, m ∈ [(⟨"m1", "a", 1, "u", "c"⟩ : Message), ⟨"m2", "b", 2, "u", "c"⟩]
        → m.timestamp < (9 : Int))
    ∧ List.Pairwise (fun a b => a.timestamp ≤ b.timestamp)
        [(⟨"m1", "a", 1, "u", "c"⟩ : Message), ⟨"m2", "b", 2, "u", "c"⟩]) :=
  get_messages_bounded_sorted
    ⟨[], [⟨"c", "general", false, false, 0, "A"⟩], [⟨"m2", "b", 2, "u", "c"⟩,
      ⟨"m3", "z", 9, "u", "c"⟩, ⟨"m1", "a", 1, "u", "c"⟩], [], [], [], [], "A"⟩
    "c" 9 2 [⟨"m1", "a", 1, "u", "c"⟩, ⟨"m2", "b", 2, "u", "c"⟩] rfl

/-- C9: the three per-channel presence queries return an empty collection
(not an error) for an unknown channel; for an existing channel a returned
user is always (a) locally owned or on a non-private channel (remote
users never appear for private channels) and (b) an admin or on a channel
that is not admin-only. -/
theorem online_query_policy (s : ServerState) (cid : String) :
    (get_channel s cid = none →
        get_online_users s cid = some [] ∧ get_online_local_users s cid = some []
        ∧ get_online_remote_users s cid = some [])
    ∧ (∀ c, get_channel s cid = some c →
        (∀ us, get_online_users s cid = some us → ∀ u ∈ us,
          (u.peer_id = s.this_server_id ∨ c.is_private = false)
          ∧ (u.admin = true ∨ c.admin_only = false))
        ∧ (∀ us, get_online_local_users s cid = some us → ∀ u ∈ us,
          u.peer_id = s.this_server_id ∧ (u.admin = true ∨ c.admin_only = false))
        ∧ (∀ us, get_online_remote_users s cid = some us → ∀ u ∈ us,
          (u.peer_id ≠ s.this_server_id ∧ c.is_private = false)
          ∧ (u.admin = true ∨ c.admin_only = false))) := by
  constructor
  · intro hch
    exact ⟨by simp [get_online_users, hch], by simp [get_online_local_users, hch],
      by simp [get_online_remote_users, hch]⟩
  · intro c hch
    refine ⟨?_, ?_, ?_⟩
    · intro us hus u hu
      rw [get_online_users, hch] at hus
      have hp := collect_online_mem s _ s.online_users us hus u hu
      by_cases hloc : u.peer_id = s.this_server_id
      · rw [if_neg (by simp [hloc])] at hp
        rcases Bool.or_eq_true_iff.mp hp with ha | hna
        · exact ⟨Or.inl hloc, Or.inl ha⟩
        · exact ⟨Or.inl hloc, Or.inr (by simpa using hna)⟩
      · by_cases hpriv : c.is_private = true
        · rw [if_pos (by simp [hloc, hpriv])] at hp
          exact absurd hp (by simp)
        · have hp' : (u.admin || !c.admin_only) = true := by
            rwa [if_neg (by simp [hpriv])] at hp
          rcases Bool.or_eq_true_iff.mp hp' with ha | hna
          · exact ⟨Or.inr (by simpa using hpriv), Or.inl ha⟩
          · exact ⟨Or.inr (by simpa using hpriv), Or.inr (by simpa using hna)⟩
    · intro us hus u hu
      rw [get_online_local_users, hch] at hus
      have hp := collect_online_mem s _ s.online_users us hus u hu
      rcases Bool.and_eq_true_iff.mp hp with ⟨hl, hr⟩
      refine ⟨by simpa using hl, ?_⟩
      rcases Bool.or_eq_true_iff.mp hr with ha | hna
      · exact Or.inl ha
      · exact Or.inr (by simpa using hna)
    · intro us hus u hu
      simp only [get_online_remote_users, hch] at hus
      by_cases hpriv : c.is_private = true
      · rw [if_pos hpriv] at hus
        simp only [Option.some.injEq] at hus
        subst hus
        simp at hu
      · rw [if_neg hpriv] at hus
        have hp := collect_online_mem s _ s.online_users us hus u hu
        rcases Bool.and_eq_true_iff.mp hp with ⟨hl, hr⟩
        refine ⟨⟨by simpa using hl, by simpa using hpriv⟩, ?_⟩
        rcases Bool.or_eq_true_iff.mp hr with ha | hna
        · exact Or.inl ha
        · exact Or.inr (by simpa using hna)

/-- C9 witness: an unknown channel yields empty collections, and on an
admin-only private channel the full query admits only the local admin. -/
theorem online_query_policy_witness :
    (get_online_users ⟨[], [], [], [], [], [], [], "A"⟩ "nope" = some []
      ∧ get_online_local_users ⟨[], [], [], [], [], [], [], "A"⟩ "nope" = some []
      ∧ get_online_remote_users ⟨[], [], [], [], [], [], [], "A"⟩ "nope" = some [])
    ∧ ((⟨"u", "alice", true, "A"⟩ : User).peer_id
          = (⟨[⟨"u", "alice", true, "A"⟩, ⟨"v", "bob", true, "B"⟩],
              [⟨"c", "ops", true, true, 0, "A"⟩], [], [], ["u", "v"], [], [],
              "A"⟩ : ServerState).this_server_id
        ∨ (⟨"c", "ops", true, true, 0, "A"⟩ : Channel).is_private = false)
    ∧ ((⟨"u", "alice", true, "A"⟩ : User).admin = true
        ∨ (⟨"c", "ops", true, true, 0, "A"⟩ : Channel).admin_only = false) :=
  ⟨(online_query_policy ⟨[], [], [], [], [], [], [], "A"⟩ "nope").1 rfl,
   ((online_query_policy
      ⟨[⟨"u", "alice", true, "A"⟩, ⟨"v", "bob", true, "B"⟩],
        [⟨"c", "ops", true, true, 0, "A"⟩], [], [], ["u", "v"], [], [], "A"⟩ "c").2
      ⟨"c", "ops", true, true, 0, "A"⟩ rfl).1 [⟨"u", "alice", true, "A"⟩] rfl
      ⟨"u", "alice", true, "A"⟩ (by decide)⟩

/-- C10: applying a peer's `create_user` frame stores the user with
`admin = false` whatever the remote side held, and a user whose stored
record has `admin = false` can never get `send_message` past the
admin-only gate: for any admin-only channel the call returns null and
changes nothing. -/
theorem remote_mirrored_user_not_admin (s : ServerState) (peer_id id username : String)
    (hfresh : get_user s id = none) :
    ((handle_create_user_frame s peer_id id username).ret = some id
      ∧ get_user (handle_create_user_frame s peer_id id username).state id
          = some ⟨id, username, false, peer_id⟩)
    ∧ (∀ (s' : ServerState) (u : User) (fid cid content : String) (c : Channel)
        (now : Int), get_user s' id = some u → u.admin = false →
        get_channel s' cid = some c → c.admin_only = true →
        send_message s' fid id cid content now = .ok ⟨none, s', [], []⟩) := by
  constructor
  · constructor
    · simp [handle_create_user_frame, create_user_internal, hfresh]
    · simp only [handle_create_user_frame, create_user_internal, hfresh]
      simp only [get_user] at hfresh ⊢
      rw [List.find?_append, hfresh]
      simp [List.find?]
  · intro s' u fid cid content c now hu hadmin hc hao
    by_cases hon : id ∈ s'.online_users
    · simp [send_message, hc, hon, hu, hao, hadmin]
    · simp [send_message, hc, hon]

/-- C10 witness: a `create_user` frame from peer B mirrored into an empty
store, then checked against an admin-only channel. -/
theorem remote_mirrored_user_not_admin_witness :
    ((handle_create_user_frame ⟨[], [], [], [], [], [], [], "A"⟩ "B" "u" "bob").ret
        = some "u"
      ∧ get_user (handle_create_user_frame ⟨[], [], [], [], [], [], [], "A"⟩
          "B" "u" "bob").state "u" = some ⟨"u", "bob", false, "B"⟩)
    ∧ send_message ⟨[⟨"u", "bob", false, "B"⟩, ⟨"a", "root", true, "A"⟩],
        [⟨"c", "ops", true, false, 0, "A"⟩], [], [], ["u"], [], [], "A"⟩
        "m1" "u" "c" "hi" 3
      = .ok ⟨none, ⟨[⟨"u", "bob", false, "B"⟩, ⟨"a", "root", true, "A"⟩],
          [⟨"c", "ops", true, false, 0, "A"⟩], [], [], ["u"], [], [], "A"⟩, [], []⟩ :=
  ⟨(remote_mirrored_user_not_admin ⟨[], [], [], [], [], [], [], "A"⟩ "B" "u" "bob" rfl).1,
   (remote_mirrored_user_not_admin ⟨[], [], [], [], [], [], [], "A"⟩ "B" "u" "bob" rfl).2
      ⟨[⟨"u", "bob", false, "B"⟩, ⟨"a", "root", true, "A"⟩],
        [⟨"c", "ops", true, false, 0, "A"⟩], [], [], ["u"], [], [], "A"⟩
      ⟨"u", "bob", false, "B"⟩ "m1" "c" "hi" ⟨"c", "ops", true, false, 0, "A"⟩ 3
      rfl rfl rfl rfl⟩

/-- State for exercising message fan-out: this server "A" holds one
admin-only, non-private channel "c" it owns, one local online admin user
"u", and one live peer connection "B". -/
def fanout_state : ServerState :=
  ⟨[⟨"u", "alice", true, "A"⟩], [⟨"c", "ops", true, false, 0, "A"⟩], [], [],
    ["u"], ["B"], [], "A"⟩

/-- C1 counterexample: in `fanout_state` the channel is admin-only and
not private, yet `send_message` pushes a `send_message` frame to the
connected peer — refuting the claim that no message sent into an
admin-only channel is ever fanned out by `send_message`. -/
theorem admin_only_message_fanout_cex :
    ((get_channel fanout_state "c").map Channel.admin_only = some true
      ∧ (get_channel fanout_state "c").map Channel.is_private = some false)
    ∧ (send_message fanout_state "m1" "u" "c" "hi" 5).map OpResult.sent
        = .ok [("B", Frame.send_message "u" "c" "hi" 5)] :=
  ⟨⟨rfl, rfl⟩, rfl⟩

/-- C1 as amended: (i) creating a private or admin-only channel pushes no
frame; (ii) the catch-up pass never announces a private or admin-only
channel (ids unique); (iii) `send_message` into a private channel pushes
no frame — for an admin-only public channel the frame is pushed, the
counterexample above — and (iv) the remote mirror
`send_remote_message` rejects any private or admin-only channel with null
and no state change, so such a message is never observed on the peer. -/
theorem private_admin_channel_isolation :
    (∀ (s : ServerState) (fid nm : String) (ao ip : Bool) (now : Int),
        ao = true ∨ ip = true → (create_channel s fid nm ao ip now).sent = [])
    ∧ (∀ (s : ServerState) (pid : String) (c : Channel), c ∈ s.channels →
        (c.admin_only = true ∨ c.is_private = true) →
        (∀ c' ∈ s.channels, c'.id = c.id → c' = c) →
        ∀ f ∈ (inform_peer s pid).2, ∀ nm t, f.2 ≠ Frame.channel_create c.id nm t)
    ∧ (∀ (s : ServerState) (fid uid cid content : String) (now : Int) (c : Channel)
        (r : OpResult (Option String)), get_channel s cid = some c →
        c.is_private = true → send_message s fid uid cid content now = .ok r →
        r.sent = [])
    ∧ (∀ (s : ServerState) (uid cid content mid : String) (ts : Int) (c : Channel),
        get_channel s cid = some c → (c.admin_only = true ∨ c.is_private = true) →
        send_remote_message s uid cid content mid ts = .ok ⟨none, s, [], []⟩) := by
  refine ⟨?_, ?_, ?_, ?_⟩
  · intro s fid nm ao ip now hflag
    have hba : (!ip && !ao) = false := by
      rcases hflag with rfl | rfl <;> simp
    by_cases htaken : (find_channel_by_name s nm).isSome
    · simp [create_channel, htaken]
    · cases hint : (create_channel_internal s fid nm ao ip now s.this_server_id).ret with
      | none => simp [create_channel, htaken, hint]
      | some cid => simp [create_channel, htaken, hint, hba]
  · intro s pid c hc hflag huniq f hf nm t habs
    by_cases hconn : pid ∈ s.peer_connections
    · rw [inform_peer, if_pos hconn] at hf
      simp only [List.mem_append] at hf
      rcases hf with hf | hf
      · rcases hf with hf | hf
        · rcases List.mem_map.mp hf with ⟨c', hc', rfl⟩
          have hcpub := (List.mem_filter.mp hc').2
          have hc'mem : c' ∈ s.channels := by
            have := (List.mem_filter.mp hc').1
            rw [get_all_local_channels, mem_sort_by_ts] at this
            exact (List.mem_filter.mp this).1
          simp only [Frame.channel_create.injEq] at habs
          have : c' = c := huniq c' hc'mem habs.1
          subst this
          rcases hflag with ha | hp
          · simp [ha] at hcpub
          · simp [hp] at hcpub
        · rcases List.mem_map.mp hf with ⟨u, _, rfl⟩
          exact Frame.noConfusion habs
      · rcases List.mem_map.mp hf with ⟨uid, _, rfl⟩
        exact Frame.noConfusion habs
    · rw [inform_peer, if_neg hconn] at hf
      simp at hf
  · intro s fid uid cid content now c r hch hp hok
    by_cases hon : uid ∈ s.online_users
    · cases hu : get_user s uid with
      | none => simp [send_message, hch, hon, hu] at hok
      | some user =>
          by_cases hadm : (c.admin_only && !user.admin) = true
          · simp only [send_message, hch, if_pos hon, hu, if_pos hadm,
              Except.ok.injEq] at hok
            subst hok
            rfl
          · simp only [send_message, hch, if_pos hon, hu, if_neg hadm] at hok
            rw [hp] at hok
            simp only [Bool.not_true, Bool.and_false, Bool.false_eq_true, if_neg
              (Bool.false_ne_true)] at hok
            cases hrec : get_online_local_users
                { s with messages := s.messages
                    ++ [⟨fid, content, now, uid, cid⟩] } cid with
            | none => rw [hrec] at hok; exact absurd hok (by simp)
            | some recipients =>
                rw [hrec] at hok
                simp only [Except.ok.injEq] at hok
                subst hok
                rfl
    · simp only [send_message, hch, if_neg hon, Except.ok.injEq] at hok
      subst hok
      rfl
  · intro s uid cid content mid ts c hch hflag
    have hba : (c.admin_only || c.is_private) = true := by
      rcases hflag with h | h <;> simp [h]
    by_cases hon : uid ∈ s.online_users
    · simp [send_remote_message, hch, hon, hba]
    · simp [send_remote_message, hch, hon]

/-- C1 witness: each amended conjunct observed at a concrete input —
creating a private channel pushes nothing, the catch-up from
`fanout_state` never announces admin-only "c", a private-channel message
pushes nothing, and the mirror rejects a message into admin-only "c". -/
theorem private_admin_channel_isolation_witness :
    (create_channel fanout_state "d" "hidden" false true 1).sent = []
    ∧ (∀ f ∈ (inform_peer fanout_state "B").2, ∀ nm t,
        f.2 ≠ Frame.channel_create "c" nm t)
    ∧ send_remote_message fanout_state "u" "c" "hi" "m9" 4
        = .ok ⟨none, fanout_state, [], []⟩ :=
  ⟨private_admin_channel_isolation.1 fanout_state "d" "hidden" false true 1 (Or.inr rfl),
   fun f hf nm t =>
     private_admin_channel_isolation.2.1 fanout_state "B" ⟨"c", "ops", true, false, 0, "A"⟩
       (by decide) (Or.inl rfl) (by decide) f hf nm t,
   private_admin_channel_isolation.2.2.2 fanout_state "u" "c" "hi" "m9" 4
     ⟨"c", "ops", true, false, 0, "A"⟩ rfl (Or.inl rfl)⟩

/-- State with one locally-owned user "u" who is online and no peers. -/
def presence_state : ServerState :=
  ⟨[⟨"u", "alice", false, "A"⟩], [], [], [], ["u"], [], [], "A"⟩

/-- C3 (code bug): deleting an online user succeeds and removes the user
record, but the presence set still holds the id afterwards — both for the
local `delete_user` and for a peer's `delete_user` frame — so the
spec invariant that presence entries only exist for stored Users is
broken by the code (no `delete online_users[id]` on either path). -/
theorem delete_user_keeps_presence_entry :
    ((delete_user presence_state "u").ret = true
      ∧ get_user (delete_user presence_state "u").state "u" = none
      ∧ "u" ∈ (delete_user presence_state "u").state.online_users)
    ∧ ((handle_delete_user_frame presence_state "A" "u").ret = true
      ∧ "u" ∈ (handle_delete_user_frame presence_state "A" "u").state.online_users) := by
  refine ⟨⟨rfl, rfl, ?_⟩, rfl, ?_⟩ <;> decide

/-- State with one locally-owned online user "u" and one connected peer
"B". -/
def logout_state : ServerState :=
  ⟨[⟨"u", "alice", false, "A"⟩], [], [], [], ["u"], ["B"], [], "A"⟩

/-- C4 (code bug): logging out a locally-owned online user returns true,
clears presence, and emits `user_offline`, but the frame pushed to the
connected peer carries the type `login`, not the `logout` the wire
protocol specifies — `logout_user` sends `type: "login"`. -/
theorem logout_sends_login_typed_frame :
    (logout_user logout_state "u").ret = true
    ∧ (logout_user logout_state "u").state.online_users = []
    ∧ (logout_user logout_state "u").events
        = [Event.user_offline ⟨"u", "alice", false, "A"⟩]
    ∧ (logout_user logout_state "u").sent = [("B", Frame.login "u")] :=
  ⟨rfl, rfl, rfl, rfl⟩

/-- State with one pending incoming pair request from peer "P". -/
def pair_state : ServerState :=
  ⟨[], [], [], [], [], [], [("P", ⟨"peerP", "10.0.0.2", 7778⟩)], "A"⟩

/-- C5 counterexample: after a successful `respond_to_pair_request` the
pending incoming entry survives, so an immediately repeated call returns
true — refuting the claim that it must then return false. -/
theorem respond_pair_request_retained_cex :
    (respond_to_pair_request pair_state "P" true).1 = true
    ∧ (respond_to_pair_request
        (respond_to_pair_request pair_state "P" true).2 "P" true).1 = true :=
  ⟨rfl, rfl⟩

/-- C5 as amended: `respond_to_pair_request` returns false exactly when
no incoming pending request for the peer exists; on success the pending
entry is retained unchanged (the source never deletes it), so an
immediately following call for the same peer returns true again. -/
theorem respond_to_pair_request_spec (s : ServerState) (id : String) (accepted : Bool) :
    ((respond_to_pair_request s id accepted).1 = false ↔ lookup_incoming s id = none)
    ∧ (respond_to_pair_request s id accepted).2.pending_incoming = s.pending_incoming
    ∧ ((respond_to_pair_request s id accepted).1 = true →
        (respond_to_pair_request
          (respond_to_pair_request s id accepted).2 id accepted).1 = true) := by
  cases hlk : lookup_incoming s id with
  | none => simp [respond_to_pair_request, hlk]
  | some info =>
      have hpend : (respond_to_pair_request s id accepted).2.pending_incoming
          = s.pending_incoming := by
        cases accepted <;> simp [respond_to_pair_request, hlk, add_peer]
      have hlk2 : lookup_incoming (respond_to_pair_request s id accepted).2 id
          = some info := by
        rw [lookup_incoming, hpend]
        exact hlk
      refine ⟨?_, hpend, ?_⟩
      · simp [respond_to_pair_request, hlk]
      · intro _
        have key : ∀ s2 : ServerState, lookup_incoming s2 id = some info →
            (respond_to_pair_request s2 id accepted).1 = true := by
          intro s2 h2
          simp [respond_to_pair_request, h2]
        exact key _ hlk2

/-- C5 witness: the amended behavior observed on `pair_state`. -/
theorem respond_to_pair_request_spec_witness :
    ((respond_to_pair_request pair_state "P" true).1 = false
      ↔ lookup_incoming pair_state "P" = none)
    ∧ (respond_to_pair_request
        (respond_to_pair_request pair_state "P" true).2 "P" true).1 = true :=
  ⟨(respond_to_pair_request_spec pair_state "P" true).1,
   (respond_to_pair_request_spec pair_state "P" true).2.2 rfl⟩

/-- The empty server state owned by "A". -/
def empty_state : ServerState := ⟨[], [], [], [], [], [], [], "A"⟩

/-- C6 (code bug): for an id naming no stored message, `delete_message`
dereferences `message.relationships` on `null` and throws instead of
returning a null/false sentinel; the store is unchanged at the throw. -/
theorem delete_message_unknown_id_throws :
    get_message empty_state "bogus" = none
    ∧ delete_message empty_state "bogus" = .error empty_state :=
  ⟨rfl, rfl⟩

end Omni
